import Mathlib

/-!
Shallow embedding of the `stockfish` crate's UCI session layer
(src/src/stockfish.rs, src/src/engine_eval.rs, src/src/engine_output.rs).

The engine subprocess's pending output lines (the mpsc channel read by
`read_line`) are modelled as a `List String` (`receiver`), oldest line first,
and the commands written to the subprocess's stdin (`uci_send`) as a
`List String` (`sent`), oldest first.  A `read_line` on an empty channel
blocks forever in the source; the embedding returns `none` there.  Every
`panic!`/`unwrap`/`expect` branch of the source is likewise embedded as
`none`.
-/

/-- Rust `str::split(' ')` on the characters of a line: splits at every
single space, keeping empty segments, and always yields at least one
segment (so the source's `segments.next().unwrap()` never panics). -/
def splitAux : List Char → List Char → List String
  | [], acc => [String.mk acc.reverse]
  | c :: rest, acc =>
    if c = ' ' then String.mk acc.reverse :: splitAux rest []
    else splitAux rest (c :: acc)

/-- Rust `line.split(' ')`, as a list of segments. -/
def splitSp (s : String) : List String := splitAux s.data []

/-- The first segment of a line under `split(' ')`.  `splitSp` is never
empty, so the `headD` default is never used; it mirrors the source's
`segments.next().unwrap()`. -/
def firstTok (l : String) : String := (splitSp l).headD ""

/-- Rust `[T]::join(sep)` / `Vec::join(sep)`. -/
def joinSep (sep : String) : List String → String
  | [] => ""
  | [x] => x
  | x :: y :: xs => x ++ sep ++ joinSep sep (y :: xs)

/-- Rust `String::contains(char)` (used as `fen.contains('w')`). -/
def strContainsChar (s : String) (c : Char) : Bool := s.data.contains c

/-- Rust `str::contains(&str)` (used as `line.contains("Checkers")`):
substring containment. -/
def strContainsStr (s pat : String) : Bool :=
  s.data.tails.any (fun t => pat.data.isPrefixOf t)

/-- One decimal digit, for `str::parse::<i32>`. -/
def digitVal (c : Char) : Option Nat :=
  if c.isDigit then some (c.toNat - 48) else none

/-- Decimal accumulation of `str::parse::<i32>`. -/
def digitsVal : List Char → Nat → Option Nat
  | [], acc => some acc
  | c :: cs, acc =>
    match digitVal c with
    | some d => digitsVal cs (acc * 10 + d)
    | none => none

/-- The digits (after an optional sign) of `str::parse::<i32>`; an empty
digit string is an error, and the value must fit in `i32`. -/
def parseI32Core (sign : Int) (cs : List Char) : Option Int :=
  match cs with
  | [] => none
  | _ =>
    match digitsVal cs 0 with
    | none => none
    | some n =>
      let v : Int := sign * (n : Int)
      if -(2 ^ 31) ≤ v ∧ v ≤ 2 ^ 31 - 1 then some v else none

/-- Rust `str::parse::<i32>()`: optional `+`/`-` sign, then one or more
decimal digits, value within the `i32` range. -/
def parseI32 (s : String) : Option Int :=
  match s.data with
  | '+' :: cs => parseI32Core 1 cs
  | '-' :: cs => parseI32Core (-1) cs
  | cs => parseI32Core 1 cs

/-- src/src/engine_eval.rs: the category of evaluation, `Centipawn` or
`Mate`. -/
inductive EvalType where
  | Centipawn
  | Mate
deriving DecidableEq

/-- src/src/engine_eval.rs `EvalType::from_descriptor`: `"cp"` and
`"mate"` are the valid descriptors; any other descriptor reaches
`panic!("Unable to create eval type")`, embedded as `none`. -/
def EvalType.from_descriptor : String → Option EvalType
  | "cp" => some EvalType.Centipawn
  | "mate" => some EvalType.Mate
  | _ => none

/-- src/src/stockfish.rs `struct Stockfish`.  `receiver` holds the lines
pending in the mpsc channel (oldest first); `sent` records the commands
written to the subprocess via `uci_send` (the write side of
`interactive_process`), oldest first; `depth` and `version` are the
remaining fields of the source struct. -/
structure Stockfish where
  receiver : List String
  sent : List String
  depth : Nat
  version : Option String
deriving DecidableEq

/-- src/src/stockfish.rs `uci_send`: writes one command to the
subprocess's input stream. -/
def Stockfish.uci_send (s : Stockfish) (command : String) : Stockfish :=
  { s with sent := s.sent ++ [command] }

/-- src/src/stockfish.rs `Stockfish::new` after the process spawn: the
first line has been consumed to parse the version (`split(' ').nth(1)`),
`depth` starts at 15, and `pending` is whatever the engine has emitted
after its first line. -/
def Stockfish.new (first_line : String) (pending : List String) : Stockfish :=
  { receiver := pending
    sent := []
    depth := 15
    version := (splitSp first_line).get? 1 }

/-- The scanning loop of src/src/stockfish.rs `get_fen` (lines 170-181):
read lines until one whose first `split(' ')` segment is `"Fen:"`; the
payload is the remaining segments rejoined with `" "`; then drain lines
up to and including the first line containing `"Checkers"`. -/
def drainCheckers : List String → Option (List String)
  | [] => none
  | l :: rest =>
    if strContainsStr l "Checkers" then some rest else drainCheckers rest

/-- The `loop` of `get_fen`: scan for the `"Fen:"` line, extract the
payload, then drain to the `"Checkers"` sentinel. -/
def fenScan : List String → Option (String × List String)
  | [] => none
  | l :: rest =>
    if firstTok l = "Fen:" then
      (drainCheckers rest).map (fun ch => (joinSep " " (splitSp l).tail, ch))
    else fenScan rest

/-- src/src/stockfish.rs `get_fen`: send `"d"`, then scan-then-drain. -/
def Stockfish.get_fen (s : Stockfish) : Option (String × Stockfish) :=
  let s1 := s.uci_send "d"
  match fenScan s1.receiver with
  | none => none
  | some (fen, ch) => some (fen, { s1 with receiver := ch })

/-- The `while self.read_line() != "readyok" {}` loop of
src/src/stockfish.rs `ensure_ready`: discard lines until one is exactly
`"readyok"` (which is consumed too). -/
def readyScan : List String → Option (List String)
  | [] => none
  | l :: rest => if l = "readyok" then some rest else readyScan rest

/-- src/src/stockfish.rs `ensure_ready`: send `"isready"`, then discard
lines until `"readyok"`. -/
def Stockfish.ensure_ready (s : Stockfish) : Option Stockfish :=
  let s1 := s.uci_send "isready"
  match readyScan s1.receiver with
  | none => none
  | some ch => some { s1 with receiver := ch }

/-- The `loop` of src/src/stockfish.rs `get_board_display`
(lines 449-461): skip empty lines, stop at the line whose first segment
is `"Fen:"` (consuming it), and collect every other line seen before it.
There is no drain to the `"Checkers"` sentinel in this function. -/
def boardScanAux : List String → List String → Option (List String × List String)
  | _, [] => none
  | acc, l :: rest =>
    if l = "" then boardScanAux acc rest
    else if firstTok l = "Fen:" then some (acc, rest)
    else boardScanAux (acc ++ [l]) rest

/-- src/src/stockfish.rs `get_board_display`: send `"d"`, collect the
lines before the `"Fen:"` line, and join them with `"\n"`. -/
def Stockfish.get_board_display (s : Stockfish) : Option (String × Stockfish) :=
  let s1 := s.uci_send "d"
  match boardScanAux [] s1.receiver with
  | none => none
  | some (lines, ch) => some (joinSep "\n" lines, { s1 with receiver := ch })

/-- src/src/stockfish.rs `play_move`: fetch the FEN via `get_fen`, then
send `position fen <fen> moves <move_str>`. -/
def Stockfish.play_move (s : Stockfish) (move_str : String) : Option Stockfish :=
  match s.get_fen with
  | none => none
  | some (fen, s1) =>
    some (s1.uci_send ("position fen " ++ fen ++ " moves " ++ move_str))

/-- src/src/stockfish.rs `play_moves`: fetch the FEN via `get_fen`, join
the moves with `" "`, then send `position fen <fen> moves <moves>`. -/
def Stockfish.play_moves (s : Stockfish) (moves : List String) : Option Stockfish :=
  match s.get_fen with
  | none => none
  | some (fen, s1) =>
    some (s1.uci_send ("position fen " ++ fen ++ " moves " ++ joinSep " " moves))

/-- The source's `i32` product
`previous_segments[i + 2].parse::<i32>() * color_multiplier`
(src/src/stockfish.rs lines 383-386), as a two's-complement wrap into
the `i32` range.  Both factors are in range (`parseI32` bounds the parse
and the multiplier is `1` or `-1`), so the product overflows only at
`i32::MIN * -1`, where a release build wraps to `i32::MIN` (modelled
here) while a debug build aborts; every theorem below that fixes the
value excludes that single corner, so it holds under either profile. -/
def i32Mul (x y : Int) : Int := (x * y + 2 ^ 31) % 2 ^ 32 - 2 ^ 31

/-- The `for (i, segment) in previous_segments.iter().enumerate()` loop of
src/src/stockfish.rs `get_engine_output` (lines 380-389): the first
segment equal to `"score"` is authoritative; the next segment is the
score-type descriptor and the one after it is parsed as `i32` and
multiplied (in `i32`) by `mult`.  A missing follow-up segment or a
failed parse is an indexing/`expect` panic in the source (`none` here);
if no `"score"` segment exists the loop ends with both slots `None` and
the subsequent `unwrap` panics (`none` here too, via the caller's
bind). -/
def scoreScan (mult : Int) : List String → Option (String × Int)
  | [] => none
  | seg :: rest =>
    if seg = "score" then
      match rest with
      | t :: v :: _ => (parseI32 v).map (fun n => (t, i32Mul n mult))
      | _ => none
    else scoreScan mult rest

/-- The `loop` of src/src/stockfish.rs `get_engine_output`
(lines 363-400): every line whose first segment is not `"bestmove"`
overwrites the single `previous_line` buffer; on the `"bestmove"` line the
buffer is unwrapped (`none` if empty), its first `score` triplet is
extracted, the descriptor goes through `EvalType::from_descriptor`, and
the best move is the terminal line's second segment. -/
def engineLoop (mult : Int) : Option String → List String → Option ((EvalType × Int) × String × List String)
  | _, [] => none
  | prev, l :: rest =>
    if firstTok l = "bestmove" then
      prev.bind fun pl =>
        (scoreScan mult (splitSp pl)).bind fun tv =>
          (EvalType.from_descriptor tv.1).bind fun ty =>
            ((splitSp l).tail.head?).map fun best => ((ty, tv.2), best, rest)
    else engineLoop mult (some l) rest

/-- src/src/stockfish.rs `get_engine_output`: fetch the FEN (a full
scan-then-drain round trip), set the colour multiplier from
`fen.contains('w')`, then run the bestmove loop.  The source's
constructor calls (`EngineEval::new`, `EngineOutput::new`) pass only the
evaluation pair and the best move, so the embedding returns exactly
those computed components. -/
def Stockfish.get_engine_output (s : Stockfish) : Option ((EvalType × Int) × String × Stockfish) :=
  match s.get_fen with
  | none => none
  | some (fen, s1) =>
    let mult : Int := if strContainsChar fen 'w' then 1 else -1
    match engineLoop mult none s1.receiver with
    | none => none
    | some (ev, best, ch) => some (ev, best, { s1 with receiver := ch })

/-- src/src/stockfish.rs `go`: send `go depth <depth>`, then read the
engine output. -/
def Stockfish.go (s : Stockfish) : Option ((EvalType × Int) × String × Stockfish) :=
  (s.uci_send ("go depth " ++ toString s.depth)).get_engine_output

/-- src/src/stockfish.rs `go_for`: send `"go"`, sleep for the calculation
time (no effect on the modelled state), send `"stop"`, then read the
engine output. -/
def Stockfish.go_for (s : Stockfish) (calculation_time : Nat) : Option ((EvalType × Int) × String × Stockfish) :=
  let _ := calculation_time
  ((s.uci_send "go").uci_send "stop").get_engine_output

/-- The command built by src/src/stockfish.rs `go_based_on_times`
(lines 318-324): `"go"`, plus ` wtime <ms>` when `white_time` is set,
plus ` btime <ms>` when `black_time` is set. -/
def goTimesMsg (white_time black_time : Option Nat) : String :=
  ("go" ++ (match white_time with | some t => " wtime " ++ toString t | none => ""))
    ++ (match black_time with | some t => " btime " ++ toString t | none => "")

/-- src/src/stockfish.rs `go_based_on_times`: send the built `go` command,
then read the engine output. -/
def Stockfish.go_based_on_times (s : Stockfish) (white_time black_time : Option Nat) : Option ((EvalType × Int) × String × Stockfish) :=
  (s.uci_send (goTimesMsg white_time black_time)).get_engine_output

/-- src/src/stockfish.rs `set_depth`: a pure field update.  It returns
`Stockfish` (not `Option`): the source function has no failure path and
writes nothing to the subprocess. -/
def Stockfish.set_depth (s : Stockfish) (depth : Nat) : Stockfish :=
  { s with depth := depth }

/-- Modelled from the spec: the pondered-move extraction is missing from
src/src/stockfish.rs, whose `get_engine_output` calls `EngineOutput::new`
with two arguments while src/src/engine_output.rs declares four
(including `pondered_move`).  Per spec section 4.4 step 4, the terminal
line's tokens after the terminal marker are the best-move token, then
optionally a ponder-marker token followed by the pondered-move token. -/
def terminalTokens (toks : List String) : Option (String × Option String) :=
  match toks with
  | "bestmove" :: best :: rest =>
    some (best, match rest with | "ponder" :: p :: _ => some p | _ => none)
  | _ => none

/-! ### Helper lemmas about the scan-then-drain loops -/

lemma fenScan_append (pre ch : List String) (h : ∀ l ∈ pre, firstTok l ≠ "Fen:") :
    fenScan (pre ++ ch) = fenScan ch := by
  induction pre with
  | nil => rfl
  | cons a tl ih =>
    have ha : firstTok a ≠ "Fen:" := h a (List.mem_cons_self a tl)
    simp only [List.cons_append, fenScan, if_neg ha]
    exact ih (fun l hl => h l (List.mem_cons_of_mem a hl))

lemma drainCheckers_append (mid ch : List String)
    (h : ∀ l ∈ mid, strContainsStr l "Checkers" = false) :
    drainCheckers (mid ++ ch) = drainCheckers ch := by
  induction mid with
  | nil => rfl
  | cons a tl ih =>
    have ha := h a (List.mem_cons_self a tl)
    simp only [List.cons_append, drainCheckers, ha, Bool.false_eq_true, if_false]
    exact ih (fun l hl => h l (List.mem_cons_of_mem a hl))

lemma drainCheckers_cons (c : String) (rest : List String)
    (hc : strContainsStr c "Checkers" = true) :
    drainCheckers (c :: rest) = some rest := by
  simp [drainCheckers, hc]

lemma fenScan_eq (pre mid rest : List String) (fenLine cLine : String)
    (hpre : ∀ l ∈ pre, firstTok l ≠ "Fen:") (hfen : firstTok fenLine = "Fen:")
    (hmid : ∀ l ∈ mid, strContainsStr l "Checkers" = false)
    (hc : strContainsStr cLine "Checkers" = true) :
    fenScan (pre ++ fenLine :: (mid ++ cLine :: rest))
      = some (joinSep " " (splitSp fenLine).tail, rest) := by
  rw [fenScan_append pre _ hpre]
  simp only [fenScan, if_pos hfen, drainCheckers_append mid _ hmid,
    drainCheckers_cons cLine rest hc, Option.map_some']

lemma get_fen_eq (pre mid rest out : List String) (fenLine cLine : String)
    (d : Nat) (ver : Option String)
    (hpre : ∀ l ∈ pre, firstTok l ≠ "Fen:") (hfen : firstTok fenLine = "Fen:")
    (hmid : ∀ l ∈ mid, strContainsStr l "Checkers" = false)
    (hc : strContainsStr cLine "Checkers" = true) :
    Stockfish.get_fen ⟨pre ++ fenLine :: (mid ++ cLine :: rest), out, d, ver⟩
      = some (joinSep " " (splitSp fenLine).tail, ⟨rest, out ++ ["d"], d, ver⟩) := by
  simp only [Stockfish.get_fen, Stockfish.uci_send]
  rw [fenScan_eq pre mid rest fenLine cLine hpre hfen hmid hc]

lemma readyScan_eq (pre rest : List String) (h : ∀ l ∈ pre, l ≠ "readyok") :
    readyScan (pre ++ "readyok" :: rest) = some rest := by
  induction pre with
  | nil => simp [readyScan]
  | cons a tl ih =>
    have ha : a ≠ "readyok" := h a (List.mem_cons_self a tl)
    simp only [List.cons_append, readyScan, if_neg ha]
    exact ih (fun l hl => h l (List.mem_cons_of_mem a hl))

/-! ### C1: get_fen scan-then-drain -/

/-- C1: For every dump exchange started by sending `"d"`, `get_fen`
returns the text after the `"Fen:"` token of the first channel line whose
first token is `"Fen:"` (the remaining tokens rejoined with single
spaces), and consumes every subsequent line up to and including the first
line containing `"Checkers"`, removing them from the channel; hence two
consecutive `get_fen` calls against two identical dumps return the same
FEN string both times. -/
theorem get_fen_scan_then_drain
    (pre mid rest rest2 : List String) (fenLine cLine : String)
    (out : List String) (d : Nat) (ver : Option String)
    (hpre : ∀ l ∈ pre, firstTok l ≠ "Fen:") (hfen : firstTok fenLine = "Fen:")
    (hmid : ∀ l ∈ mid, strContainsStr l "Checkers" = false)
    (hc : strContainsStr cLine "Checkers" = true) :
    Stockfish.get_fen ⟨pre ++ fenLine :: (mid ++ cLine :: rest), out, d, ver⟩
      = some (joinSep " " (splitSp fenLine).tail, ⟨rest, out ++ ["d"], d, ver⟩)
    ∧ Stockfish.get_fen
        ⟨(pre ++ fenLine :: (mid ++ [cLine]))
            ++ ((pre ++ fenLine :: (mid ++ [cLine])) ++ rest2), out, d, ver⟩
      = some (joinSep " " (splitSp fenLine).tail,
              ⟨(pre ++ fenLine :: (mid ++ [cLine])) ++ rest2, out ++ ["d"], d, ver⟩)
    ∧ Stockfish.get_fen ⟨(pre ++ fenLine :: (mid ++ [cLine])) ++ rest2, out ++ ["d"], d, ver⟩
      = some (joinSep " " (splitSp fenLine).tail, ⟨rest2, out ++ ["d", "d"], d, ver⟩) := by
  have key : ∀ (rest' out' : List String),
      Stockfish.get_fen ⟨pre ++ fenLine :: (mid ++ cLine :: rest'), out', d, ver⟩
        = some (joinSep " " (splitSp fenLine).tail, ⟨rest', out' ++ ["d"], d, ver⟩) :=
    fun rest' out' => get_fen_eq pre mid rest' out' fenLine cLine d ver hpre hfen hmid hc
  refine ⟨key rest out, ?_, ?_⟩
  · have e : (pre ++ fenLine :: (mid ++ [cLine]))
        ++ ((pre ++ fenLine :: (mid ++ [cLine])) ++ rest2)
        = pre ++ fenLine :: (mid ++ cLine :: ((pre ++ fenLine :: (mid ++ [cLine])) ++ rest2)) := by
      simp
    rw [e]; exact key _ _
  · have e : (pre ++ fenLine :: (mid ++ [cLine])) ++ rest2
        = pre ++ fenLine :: (mid ++ cLine :: rest2) := by
      simp
    rw [e]
    have h2 := key rest2 (out ++ ["d"])
    simpa using h2

theorem get_fen_scan_then_drain_witness :
    firstTok "Fen: 8/8/8/8/8/8/8/8 w - - 0 1" = "Fen:"
    ∧ Stockfish.get_fen
        ⟨["junk line", "Fen: 8/8/8/8/8/8/8/8 w - - 0 1", "ep sq", "Checkers: none"],
         [], 15, none⟩
      = some ("8/8/8/8/8/8/8/8 w - - 0 1", ⟨[], ["d"], 15, none⟩) := by
  refine ⟨by decide, ?_⟩
  exact (get_fen_scan_then_drain ["junk line"] ["ep sq"] [] []
    "Fen: 8/8/8/8/8/8/8/8 w - - 0 1" "Checkers: none" [] 15 none
    (by decide) (by decide) (by decide) (by decide)).1.trans (by decide)

/-! ### C7: ensure_ready -/

/-- C7: `ensure_ready` sends `"isready"` and returns only after consuming
a line exactly equal to `"readyok"`; every line emitted before that
acknowledgment is pulled from the channel and discarded, so no line
preceding the `"readyok"` line remains unconsumed in the channel. -/
theorem ensure_ready_consumes_to_readyok
    (pre rest out : List String) (d : Nat) (ver : Option String)
    (hpre : ∀ l ∈ pre, l ≠ "readyok") :
    Stockfish.ensure_ready ⟨pre ++ "readyok" :: rest, out, d, ver⟩
      = some ⟨rest, out ++ ["isready"], d, ver⟩ := by
  simp only [Stockfish.ensure_ready, Stockfish.uci_send]
  rw [readyScan_eq pre rest hpre]

theorem ensure_ready_consumes_to_readyok_witness :
    (∀ l ∈ (["info string a", "info string b"] : List String), l ≠ "readyok")
    ∧ Stockfish.ensure_ready
        ⟨["info string a", "info string b", "readyok", "later"], [], 15, none⟩
      = some ⟨["later"], ["isready"], 15, none⟩ := by
  refine ⟨by decide, ?_⟩
  exact (ensure_ready_consumes_to_readyok ["info string a", "info string b"]
    ["later"] [] 15 none (by decide)).trans (by decide)

/-! ### C8: play_move / play_moves -/

/-- C8: `play_move m` and `play_moves ms` update the position by first
performing the full `get_fen` fetch-then-drain round trip (which writes
`"d"` and consumes the dump) and then writing the single command
`position fen <fetched-fen> moves <m1> … <mk>`; the exact list of
commands written shows that no incremental make-move command is ever
sent. -/
theorem play_fetch_then_set
    (pre mid rest out : List String) (fenLine cLine : String)
    (d : Nat) (ver : Option String) (m : String) (ms : List String)
    (hpre : ∀ l ∈ pre, firstTok l ≠ "Fen:") (hfen : firstTok fenLine = "Fen:")
    (hmid : ∀ l ∈ mid, strContainsStr l "Checkers" = false)
    (hc : strContainsStr cLine "Checkers" = true) :
    Stockfish.play_move ⟨pre ++ fenLine :: (mid ++ cLine :: rest), out, d, ver⟩ m
      = some ⟨rest,
          out ++ ["d",
            "position fen " ++ joinSep " " (splitSp fenLine).tail ++ " moves " ++ m],
          d, ver⟩
    ∧ Stockfish.play_moves ⟨pre ++ fenLine :: (mid ++ cLine :: rest), out, d, ver⟩ ms
      = some ⟨rest,
          out ++ ["d",
            "position fen " ++ joinSep " " (splitSp fenLine).tail ++ " moves "
              ++ joinSep " " ms],
          d, ver⟩ := by
  constructor
  · simp only [Stockfish.play_move]
    rw [get_fen_eq pre mid rest out fenLine cLine d ver hpre hfen hmid hc]
    simp [Stockfish.uci_send]
  · simp only [Stockfish.play_moves]
    rw [get_fen_eq pre mid rest out fenLine cLine d ver hpre hfen hmid hc]
    simp [Stockfish.uci_send]

theorem play_fetch_then_set_witness :
    firstTok "Fen: 8/8/8/8/8/8/8/8 w - - 0 1" = "Fen:"
    ∧ Stockfish.play_move
        ⟨["Fen: 8/8/8/8/8/8/8/8 w - - 0 1", "Checkers: none"], [], 15, none⟩ "e2e4"
      = some ⟨[], ["d", "position fen 8/8/8/8/8/8/8/8 w - - 0 1 moves e2e4"], 15, none⟩
    ∧ Stockfish.play_moves
        ⟨["Fen: 8/8/8/8/8/8/8/8 w - - 0 1", "Checkers: none"], [], 15, none⟩
        ["e2e4", "e7e5"]
      = some ⟨[], ["d", "position fen 8/8/8/8/8/8/8/8 w - - 0 1 moves e2e4 e7e5"],
              15, none⟩ := by
  have H := play_fetch_then_set [] [] [] [] "Fen: 8/8/8/8/8/8/8/8 w - - 0 1"
    "Checkers: none" 15 none "e2e4" ["e2e4", "e7e5"]
    (by decide) (by decide) (by decide) (by decide)
  exact ⟨by decide, H.1.trans (by decide), H.2.trans (by decide)⟩

/-! ### Helper lemmas about the bestmove loop -/

lemma engineLoop_skip (mult : Int) (p : Option String) (l : String) (ch : List String)
    (h : firstTok l ≠ "bestmove") :
    engineLoop mult p (l :: ch) = engineLoop mult (some l) ch := by
  simp [engineLoop, h]

lemma engineLoop_last (mult : Int) :
    ∀ (ls ch : List String) (p : Option String),
      ls ≠ [] → (∀ l ∈ ls, firstTok l ≠ "bestmove") →
      engineLoop mult p (ls ++ ch) = engineLoop mult ls.getLast? ch := by
  intro ls
  induction ls with
  | nil => intro ch p h _; exact absurd rfl h
  | cons a tl ih =>
    intro ch p _ hall
    cases tl with
    | nil =>
      rw [List.singleton_append,
        engineLoop_skip mult p a ch (hall a (List.mem_cons_self a []))]
      rfl
    | cons b2 tl2 =>
      rw [List.cons_append,
        engineLoop_skip mult p a _ (hall a (List.mem_cons_self a _)),
        ih ch (some a) (by simp) (fun l hl => hall l (List.mem_cons_of_mem a hl))]
      rw [List.getLast?_cons_cons]

lemma engineLoop_term (mult : Int) (pl b : String) (rest : List String)
    (hb : firstTok b = "bestmove") :
    engineLoop mult (some pl) (b :: rest)
      = (scoreScan mult (splitSp pl)).bind fun tv =>
          (EvalType.from_descriptor tv.1).bind fun ty =>
            ((splitSp b).tail.head?).map fun best => ((ty, tv.2), best, rest) := by
  simp [engineLoop, hb]

lemma scoreScan_first (mult : Int) :
    ∀ (a : List String), "score" ∉ a → ∀ (t v : String) (b2 : List String),
      scoreScan mult (a ++ "score" :: t :: v :: b2)
        = (parseI32 v).map (fun n => (t, i32Mul n mult)) := by
  intro a
  induction a with
  | nil => intro _ t v b2; simp [scoreScan]
  | cons x xs ih =>
    intro hx t v b2
    have hx1 : x ≠ "score" := fun e => hx (e ▸ List.mem_cons_self x xs)
    simp only [List.cons_append, scoreScan, if_neg hx1]
    exact ih (fun hm => hx (List.mem_cons_of_mem x hm)) t v b2

/-! ### C3: single-slot buffering and first-triplet extraction -/

/-- C3: During result extraction the loop keeps exactly one buffered
line: a prefix of non-`"bestmove"` lines influences the outcome only
through its last element (whatever the buffer held before is
overwritten, so earlier lines are never consulted), and the score scan
of the buffered line takes the first left-to-right
`score <kind> <integer>` triplet as authoritative. -/
theorem engine_single_line_buffer :
    (∀ (mult : Int) (p : Option String) (ls ch : List String),
        ls ≠ [] → (∀ l ∈ ls, firstTok l ≠ "bestmove") →
        engineLoop mult p (ls ++ ch) = engineLoop mult ls.getLast? ch)
    ∧ (∀ (mult : Int) (a : List String) (t v : String) (b2 : List String),
        "score" ∉ a →
        scoreScan mult (a ++ "score" :: t :: v :: b2)
          = (parseI32 v).map (fun n => (t, i32Mul n mult))) :=
  ⟨fun mult p ls ch h1 h2 => engineLoop_last mult ls ch p h1 h2,
   fun mult a t v b2 ha => scoreScan_first mult a ha t v b2⟩

theorem engine_single_line_buffer_witness :
    (["info string x", "info depth 12"] : List String) ≠ []
    ∧ engineLoop 1 (some "seed line")
        (["info string x", "info depth 12"] ++ ["bestmove e2e4"])
      = engineLoop 1 (["info string x", "info depth 12"].getLast?) ["bestmove e2e4"]
    ∧ scoreScan 1 (["info", "depth", "9"] ++ "score" :: "cp" :: "25" :: ["nodes", "7"])
      = some ("cp", 25) := by
  refine ⟨by decide,
    engine_single_line_buffer.1 1 (some "seed line") _ _ (by decide) (by decide), ?_⟩
  exact (engine_single_line_buffer.2 1 ["info", "depth", "9"] "cp" "25"
    ["nodes", "7"] (by decide)).trans (by decide)

/-! ### C9: a preceding non-terminal line is required -/

/-- C9: When the very first line pulled after the calculation command is
the terminal `"bestmove"` line, the buffered previous-line slot is still
empty and extraction fails (`none`, the source's
`previous_line.unwrap()` panic) rather than producing a result with a
default evaluation; when at least one non-terminal line precedes the
terminal line, the buffered slot holds the last such line and its access
succeeds, extraction proceeding from that line. -/
theorem engine_output_requires_prior_line :
    (∀ (mult : Int) (b : String) (rest : List String),
        firstTok b = "bestmove" → engineLoop mult none (b :: rest) = none)
    ∧ (∀ (mult : Int) (ls : List String) (lastLine b : String) (rest : List String),
        ls ≠ [] → (∀ l ∈ ls, firstTok l ≠ "bestmove") →
        ls.getLast? = some lastLine → firstTok b = "bestmove" →
        engineLoop mult none (ls ++ b :: rest)
          = (scoreScan mult (splitSp lastLine)).bind fun tv =>
              (EvalType.from_descriptor tv.1).bind fun ty =>
                ((splitSp b).tail.head?).map fun best => ((ty, tv.2), best, rest)) := by
  constructor
  · intro mult b rest hb
    simp [engineLoop, hb]
  · intro mult ls lastLine b rest h1 h2 h3 hb
    rw [engineLoop_last mult ls (b :: rest) none h1 h2, h3,
      engineLoop_term mult lastLine b rest hb]

theorem engine_output_requires_prior_line_witness :
    firstTok "bestmove e2e4" = "bestmove"
    ∧ engineLoop 2 none ["bestmove e2e4"] = none
    ∧ engineLoop 2 none (["info score cp 5"] ++ ["bestmove e2e4"])
      = some ((EvalType.Centipawn, 10), "e2e4", []) := by
  refine ⟨by decide,
    engine_output_requires_prior_line.1 2 "bestmove e2e4" [] (by decide), ?_⟩
  exact (engine_output_requires_prior_line.2 2 ["info score cp 5"] "info score cp 5"
    "bestmove e2e4" [] (by decide) (by decide) (by decide) (by decide)).trans (by decide)

/-! ### Range facts for the parsed score and the i32 product -/

lemma parseI32Core_range (sign : Int) (cs : List Char) (n : Int)
    (h : parseI32Core sign cs = some n) :
    -(2 ^ 31) ≤ n ∧ n ≤ 2 ^ 31 - 1 := by
  unfold parseI32Core at h
  cases cs with
  | nil => exact absurd h (by simp)
  | cons c cs2 =>
    cases hd : digitsVal (c :: cs2) 0 with
    | none => rw [hd] at h; exact absurd h (by simp)
    | some m =>
      rw [hd] at h
      dsimp only at h
      split_ifs at h with hr
      injection h with h2
      rw [h2] at hr
      exact hr

lemma parseI32_range (s : String) (n : Int) (h : parseI32 s = some n) :
    -(2 ^ 31) ≤ n ∧ n ≤ 2 ^ 31 - 1 := by
  unfold parseI32 at h
  split at h
  all_goals exact parseI32Core_range _ _ _ h

lemma i32Mul_one (n : Int) (h1 : -(2 ^ 31) ≤ n) (h2 : n ≤ 2 ^ 31 - 1) :
    i32Mul n 1 = n := by
  unfold i32Mul
  omega

lemma i32Mul_neg_one (n : Int) (h1 : -(2 ^ 31) < n) (h2 : n ≤ 2 ^ 31 - 1) :
    i32Mul n (-1) = -n := by
  unfold i32Mul
  omega

/-! ### Main lemma: get_engine_output on a well-formed exchange -/

lemma get_engine_output_eq
    (pre mid ls : List String) (fenLine cLine lastLine b : String)
    (rest out : List String) (d : Nat) (ver : Option String)
    (a : List String) (t v : String) (bta : List String) (n : Int) (ty : EvalType)
    (bm : String) (btl : List String)
    (hpre : ∀ l ∈ pre, firstTok l ≠ "Fen:") (hfen : firstTok fenLine = "Fen:")
    (hmid : ∀ l ∈ mid, strContainsStr l "Checkers" = false)
    (hc : strContainsStr cLine "Checkers" = true)
    (hls : ls ≠ []) (hlsnb : ∀ l ∈ ls, firstTok l ≠ "bestmove")
    (hlast : ls.getLast? = some lastLine)
    (hsegs : splitSp lastLine = a ++ "score" :: t :: v :: bta) (hna : "score" ∉ a)
    (hv : parseI32 v = some n) (hn : -(2 ^ 31) < n)
    (ht : EvalType.from_descriptor t = some ty)
    (hbsegs : splitSp b = "bestmove" :: bm :: btl) :
    Stockfish.get_engine_output
        ⟨pre ++ fenLine :: (mid ++ cLine :: (ls ++ b :: rest)), out, d, ver⟩
      = some ((ty, if strContainsChar (joinSep " " (splitSp fenLine).tail) 'w' = true
                   then n else -n),
              bm, ⟨rest, out ++ ["d"], d, ver⟩) := by
  have hb : firstTok b = "bestmove" := by rw [firstTok, hbsegs]; rfl
  have hrange := parseI32_range v n hv
  have h1 : i32Mul n 1 = n := i32Mul_one n hrange.1 hrange.2
  have h2 : i32Mul n (-1) = -n := i32Mul_neg_one n hn hrange.2
  have hloop : ∀ mult : Int,
      engineLoop mult none (ls ++ b :: rest) = some ((ty, i32Mul n mult), bm, rest) := by
    intro mult
    rw [engineLoop_last mult ls (b :: rest) none hls hlsnb, hlast,
      engineLoop_term mult lastLine b rest hb, hsegs,
      scoreScan_first mult a hna t v bta, hv]
    simp [ht, hbsegs]
  simp only [Stockfish.get_engine_output]
  rw [get_fen_eq pre mid _ out fenLine cLine d ver hpre hfen hmid hc]
  simp only [hloop]
  cases hcw : strContainsChar (joinSep " " (splitSp fenLine).tail) 'w' <;>
    simp [hcw, h1, h2]

/-! ### C2: score sign normalization -/

/-- C2 (counterexample): at the raw score `i32::MIN = -2147483648`
(accepted by `parse::<i32>`) with black to move, the claimed value is
the raw integer multiplied by `-1`, that is `+2147483648` — but the
source's product `parse::<i32>() * color_multiplier`
(src/src/stockfish.rs lines 383-386) is `i32` arithmetic, which can
never produce `+2147483648`: a release build wraps back to
`-2147483648` (the value below) and a debug build aborts. -/
theorem go_score_sign_overflow_cex :
    Stockfish.go
        ⟨["Fen: 4k3/8/8/8/8/8/8/4K3 b - - 0 1", "Checkers: ",
          "info depth 1 score cp -2147483648", "bestmove e2e4"], [], 15, none⟩
      = some ((EvalType.Centipawn, -2147483648), "e2e4",
              ⟨[], ["go depth 15", "d"], 15, none⟩)
    ∧ parseI32 "-2147483648" = some (-2147483648)
    ∧ (-2147483648 : Int) ≠ -2147483648 * -1 :=
  ⟨by decide, by decide, by decide⟩

/-- C2 (amended): For every calculation request (`go`, `go_for`,
`go_based_on_times`), the evaluation value of the result equals the raw
integer `n` of the buffered line's score triplet when the fetched
position payload contains the white side-to-move marker `'w'`, and
equals `-n` when it does not (the payload indicates the side to move is
black) — provided `n` is not `i32::MIN = -2147483648`, the one raw
value at which the source's `i32` product overflows (wrapping in a
release build, aborting in a debug build). -/
theorem go_normalizes_score_sign
    (pre mid ls : List String) (fenLine cLine lastLine b : String)
    (rest out : List String) (d : Nat) (ver : Option String)
    (a : List String) (t v : String) (bta : List String) (n : Int) (ty : EvalType)
    (bm : String) (btl : List String) (calculation_time : Nat) (wt bt : Option Nat)
    (hpre : ∀ l ∈ pre, firstTok l ≠ "Fen:") (hfen : firstTok fenLine = "Fen:")
    (hmid : ∀ l ∈ mid, strContainsStr l "Checkers" = false)
    (hc : strContainsStr cLine "Checkers" = true)
    (hls : ls ≠ []) (hlsnb : ∀ l ∈ ls, firstTok l ≠ "bestmove")
    (hlast : ls.getLast? = some lastLine)
    (hsegs : splitSp lastLine = a ++ "score" :: t :: v :: bta) (hna : "score" ∉ a)
    (hv : parseI32 v = some n) (hn : -(2 ^ 31) < n)
    (ht : EvalType.from_descriptor t = some ty)
    (hbsegs : splitSp b = "bestmove" :: bm :: btl) :
    Stockfish.go ⟨pre ++ fenLine :: (mid ++ cLine :: (ls ++ b :: rest)), out, d, ver⟩
      = some ((ty, if strContainsChar (joinSep " " (splitSp fenLine).tail) 'w' = true
                   then n else -n),
              bm, ⟨rest, out ++ ["go depth " ++ toString d, "d"], d, ver⟩)
    ∧ Stockfish.go_for
        ⟨pre ++ fenLine :: (mid ++ cLine :: (ls ++ b :: rest)), out, d, ver⟩
        calculation_time
      = some ((ty, if strContainsChar (joinSep " " (splitSp fenLine).tail) 'w' = true
                   then n else -n),
              bm, ⟨rest, out ++ ["go", "stop", "d"], d, ver⟩)
    ∧ Stockfish.go_based_on_times
        ⟨pre ++ fenLine :: (mid ++ cLine :: (ls ++ b :: rest)), out, d, ver⟩ wt bt
      = some ((ty, if strContainsChar (joinSep " " (splitSp fenLine).tail) 'w' = true
                   then n else -n),
              bm, ⟨rest, out ++ [goTimesMsg wt bt, "d"], d, ver⟩) := by
  refine ⟨?_, ?_, ?_⟩
  · have H := get_engine_output_eq pre mid ls fenLine cLine lastLine b rest
      (out ++ ["go depth " ++ toString d]) d ver a t v bta n ty bm btl
      hpre hfen hmid hc hls hlsnb hlast hsegs hna hv hn ht hbsegs
    simpa [Stockfish.go, Stockfish.uci_send, List.append_assoc] using H
  · have H := get_engine_output_eq pre mid ls fenLine cLine lastLine b rest
      (out ++ ["go", "stop"]) d ver a t v bta n ty bm btl
      hpre hfen hmid hc hls hlsnb hlast hsegs hna hv hn ht hbsegs
    simpa [Stockfish.go_for, Stockfish.uci_send, List.append_assoc] using H
  · have H := get_engine_output_eq pre mid ls fenLine cLine lastLine b rest
      (out ++ [goTimesMsg wt bt]) d ver a t v bta n ty bm btl
      hpre hfen hmid hc hls hlsnb hlast hsegs hna hv hn ht hbsegs
    simpa [Stockfish.go_based_on_times, Stockfish.uci_send, List.append_assoc] using H

theorem go_normalizes_score_sign_witness :
    parseI32 "37" = some 37
    ∧ Stockfish.go
        ⟨["Fen: 4k3/8/8/8/8/8/8/4K3 w - - 0 1", "Checkers: ",
          "info depth 15 score cp 37 pv e2e4", "bestmove e2e4 ponder e7e5"],
         [], 15, none⟩
      = some ((EvalType.Centipawn, 37), "e2e4", ⟨[], ["go depth 15", "d"], 15, none⟩)
    ∧ Stockfish.go
        ⟨["Fen: 4k3/8/8/8/8/8/8/4K3 b - - 0 1", "Checkers: ",
          "info depth 15 score cp 37 pv e2e4", "bestmove e2e4 ponder e7e5"],
         [], 15, none⟩
      = some ((EvalType.Centipawn, -37), "e2e4", ⟨[], ["go depth 15", "d"], 15, none⟩) := by
  have HW := go_normalizes_score_sign [] [] ["info depth 15 score cp 37 pv e2e4"]
    "Fen: 4k3/8/8/8/8/8/8/4K3 w - - 0 1" "Checkers: "
    "info depth 15 score cp 37 pv e2e4" "bestmove e2e4 ponder e7e5" [] [] 15 none
    ["info", "depth", "15"] "cp" "37" ["pv", "e2e4"] 37 EvalType.Centipawn
    "e2e4" ["ponder", "e7e5"] 0 none none
    (by decide) (by decide) (by decide) (by decide) (by decide) (by decide)
    (by decide) (by decide) (by decide) (by decide) (by decide) (by decide)
    (by decide)
  have HB := go_normalizes_score_sign [] [] ["info depth 15 score cp 37 pv e2e4"]
    "Fen: 4k3/8/8/8/8/8/8/4K3 b - - 0 1" "Checkers: "
    "info depth 15 score cp 37 pv e2e4" "bestmove e2e4 ponder e7e5" [] [] 15 none
    ["info", "depth", "15"] "cp" "37" ["pv", "e2e4"] 37 EvalType.Centipawn
    "e2e4" ["ponder", "e7e5"] 0 none none
    (by decide) (by decide) (by decide) (by decide) (by decide) (by decide)
    (by decide) (by decide) (by decide) (by decide) (by decide) (by decide)
    (by decide)
  exact ⟨by decide, HW.1.trans (by decide), HB.1.trans (by decide)⟩

/-! ### C4: malformed engine output reaches panic branches -/

/-- C4 (evaluation at the failing inputs): a score-kind token other than
`"cp"`/`"mate"` reaches `panic!("Unable to create eval type")` in
`EvalType::from_descriptor`; a buffered line with no score triplet
reaches `score_type.unwrap()`; an unparsable score value reaches the
`parse` `expect`; a terminal line with no move token reaches the
second-segment `expect`.  All are process aborts in the source, embedded
as `none`, not distinct recoverable error values. -/
theorem protocol_violation_panics :
    EvalType.from_descriptor "xx" = none
    ∧ engineLoop 1 (some "info score xx 10") ["bestmove e2e4"] = none
    ∧ engineLoop 1 (some "info depth 12") ["bestmove e2e4"] = none
    ∧ engineLoop 1 (some "info score cp zz") ["bestmove e2e4"] = none
    ∧ engineLoop 1 (some "info score cp 10") ["bestmove"] = none :=
  ⟨rfl, by decide, by decide, by decide, by decide⟩

/-! ### C5: get_board_display does not drain to the sentinel -/

/-- C5 (counterexample): after `get_board_display` returns, the
`"Checkers"` sentinel line of the dump is still in the channel — the
function stops at the `"Fen:"` line and performs no drain, contradicting
the claim that no lines of the dump remain. -/
theorem board_display_leaves_sentinel :
    Stockfish.get_board_display
        ⟨["+---+", "| r |", "Fen: 4k3/8/8/8/8/8/8/4K3 w - - 0 1", "Checkers: "],
         [], 15, none⟩
      = some ("+---+\n| r |", ⟨["Checkers: "], ["d"], 15, none⟩)
    ∧ strContainsStr "Checkers: " "Checkers" = true
    ∧ (["Checkers: "] : List String) ≠ [] :=
  ⟨by decide, by decide, by decide⟩

lemma boardScanAux_eq (fenLine : String) (hfen : firstTok fenLine = "Fen:") :
    ∀ (pre acc rest : List String),
      (∀ l ∈ pre, firstTok l ≠ "Fen:") →
      boardScanAux acc (pre ++ fenLine :: rest)
        = some (acc ++ pre.filter (fun l => !(l == "")), rest) := by
  intro pre
  induction pre with
  | nil =>
    intro acc rest _
    have hne : fenLine ≠ "" := by
      intro e
      rw [e] at hfen
      exact absurd hfen (by decide)
    simp [boardScanAux, hne, hfen]
  | cons x xs ih =>
    intro acc rest hall
    have hx : firstTok x ≠ "Fen:" := hall x (List.mem_cons_self x xs)
    have H := fun acc' => ih acc' rest (fun l hl => hall l (List.mem_cons_of_mem _ hl))
    by_cases hxe : x = ""
    · subst hxe
      simp only [List.cons_append, boardScanAux, eq_self_iff_true, ite_true,
        List.append_eq]
      rw [H acc]
      simp
    · simp only [List.cons_append, boardScanAux, if_neg hxe, if_neg hx,
        List.append_eq]
      rw [H (acc ++ [x])]
      simp [List.filter_cons, hxe]

/-- C5 (amended): `get_board_display`, after sending `"d"`, returns the
non-empty lines seen before the `"Fen:"` value line joined with
newlines, consuming lines only up to and including the `"Fen:"` line;
it does not drain to the `"Checkers"` sentinel, so the dump's remaining
lines stay in the channel. -/
theorem get_board_display_stops_at_fen
    (pre rest out : List String) (fenLine : String) (d : Nat) (ver : Option String)
    (hpre : ∀ l ∈ pre, firstTok l ≠ "Fen:") (hfen : firstTok fenLine = "Fen:") :
    Stockfish.get_board_display ⟨pre ++ fenLine :: rest, out, d, ver⟩
      = some (joinSep "\n" (pre.filter (fun l => !(l == ""))),
              ⟨rest, out ++ ["d"], d, ver⟩) := by
  simp only [Stockfish.get_board_display, Stockfish.uci_send]
  rw [boardScanAux_eq fenLine hfen pre [] rest hpre]
  simp

theorem get_board_display_stops_at_fen_witness :
    firstTok "Fen: 4k3/8/8/8/8/8/8/4K3 w - - 0 1" = "Fen:"
    ∧ Stockfish.get_board_display
        ⟨["+---+", "", "| r |", "Fen: 4k3/8/8/8/8/8/8/4K3 w - - 0 1",
          "Checkers: ", "trailing"], [], 15, none⟩
      = some ("+---+\n| r |", ⟨["Checkers: ", "trailing"], ["d"], 15, none⟩) := by
  refine ⟨by decide, ?_⟩
  exact (get_board_display_stops_at_fen ["+---+", "", "| r |"]
    ["Checkers: ", "trailing"] [] "Fen: 4k3/8/8/8/8/8/8/4K3 w - - 0 1" 15 none
    (by decide) (by decide)).trans (by decide)

/-! ### C6: terminal-line ponder extraction (modelled from the spec) -/

/-- C6: When the terminal line's tokens are
`bestmove <m> ponder <p>`, the extracted best move is `m` and the
extracted pondered move is `some p`; when the terminal line carries no
ponder pair, the pondered move is `none`. -/
theorem terminal_ponder_extraction (m p : String) :
    terminalTokens ["bestmove", m, "ponder", p] = some (m, some p)
    ∧ terminalTokens ["bestmove", m] = some (m, none) :=
  ⟨rfl, rfl⟩

/-! ### C10: set_depth is a pure field update -/

/-- C10: `set_depth d` writes no command to the subprocess (the `sent`
list is unchanged) and cannot fail (it is a total function into
`Stockfish`, with no error path); it changes only the `depth` field,
leaving the line receiver and the version string unchanged, and the new
depth takes effect only on the next `go` call, which sends
`go depth <d>`; after construction the default depth is 15. -/
theorem set_depth_is_pure_field_update (d : Nat) (s : Stockfish)
    (first_line : String) (pending : List String) :
    (s.set_depth d).depth = d
    ∧ (s.set_depth d).receiver = s.receiver
    ∧ (s.set_depth d).sent = s.sent
    ∧ (s.set_depth d).version = s.version
    ∧ (s.set_depth d).go
        = ((s.set_depth d).uci_send ("go depth " ++ toString d)).get_engine_output
    ∧ (Stockfish.new first_line pending).depth = 15 :=
  ⟨rfl, rfl, rfl, rfl, rfl, rfl⟩
